import Mathlib

/-!
Verification of the install/uninstall utility of the sparql-kernel
repository (file `sparqlkernel/install.py`).

The embedding models file contents as lists of characters (the byte
content, with the newline convention '\n').  The pair of files the CSS
splice routine touches — `custom.css` and its scratch file
`custom.css-new` — is modelled by `FsState`, where `none` means the
file does not exist.  Python's line iteration (`for line in f`), which
yields lines that keep their trailing newline and a possibly
unterminated final line, is modelled by `pyLinesL`.  A raised
exception is modelled by returning `none` in the `Option Bool` result
component of `remove_custom_css`.
-/

namespace SparqlKernel

/-- From `css_frame_prefix` in install.py: the comment used in custom
css to frame kernel CSS, `'/* @\x7b\x7bKERNEL\x7d\x7d \x7b\x7d '.format(name)`. -/
def css_frame_prefix (name : String) : String :=
  "/* @\x7bKERNEL\x7d " ++ name ++ " "

/-- The text written after the frame comment on the starting sentinel
line (install.py line 88). -/
def sentinelSTART : String := "START ======================== */\n"

/-- The text written after the frame comment on the ending sentinel
line (install.py line 91). -/
def sentinelEND : String := "END ======================== */\n"

/-- Python's text-file line iteration: split after every newline,
each line keeps its trailing newline; a final unterminated fragment is
a line of its own; the empty file yields no lines. -/
def pyLinesL : List Char → List (List Char)
  | [] => []
  | c :: rest =>
    if c = '\n' then [c] :: pyLinesL rest
    else
      match pyLinesL rest with
      | [] => [[c]]
      | l :: ls => (c :: l) :: ls

/-- Python's `line.startswith(pat)`. -/
def startsWith (line pat : List Char) : Bool := decide (pat <+: line)

/-- Python's `line.find(pat) >= 0`: pat occurs somewhere in line. -/
def lineHas (line pat : List Char) : Bool := decide (pat <:+: line)

/-- The two files in the destination directory that the css
splice/un-splice routines touch: `custom.css` and the scratch file
`custom.css-new`.  `none` means the file does not exist. -/
structure FsState where
  custom : Option (List Char)
  scratch : Option (List Char)
deriving DecidableEq, Repr

/-- `install_custom_css` from install.py (lines 68-96).  `cssData` is
the packaged CSS fragment (`pkgutil.get_data` on the resource css
file, decoded).  If any line of an existing custom.css contains the
frame prefix the function returns at once; otherwise it writes the
prefix, the START sentinel text, the fragment, the prefix, the END
sentinel text and then the old content to the scratch file and renames
it over custom.css. -/
def install_custom_css (st : FsState) (cssData : List Char) (resource : String) : FsState :=
  let pfx := ( css_frame_prefix resource).data
  match st.custom with
  | some content =>
      if (pyLinesL content).any (fun line => lineHas line pfx) then st
      else ⟨some (pfx ++ sentinelSTART.data ++ cssData ++ pfx ++ sentinelEND.data ++ content),
            none⟩
  | none =>
      ⟨some (pfx ++ sentinelSTART.data ++ cssData ++ pfx ++ sentinelEND.data), none⟩

/-- The scan loop of `remove_custom_css` (install.py lines 113-120):
a line starting with prefix+START stops copying (and records that the
block was found), a line starting with prefix+END resumes copying, and
any other line is written through when the copying flag is on.
Returns the lines written to the scratch file and the `found` flag. -/
def removeScan (pfx : List Char) : Bool → List (List Char) → List (List Char) × Bool
  | _, [] => ([], false)
  | copy, line :: rest =>
    if startsWith line (pfx ++ ("START").data) then
      ((removeScan pfx false rest).1, true)
    else if startsWith line (pfx ++ ("END").data) then
      removeScan pfx true rest
    else if copy then
      let r := removeScan pfx copy rest
      (line :: r.1, r.2)
    else removeScan pfx copy rest

/-- `remove_custom_css` from install.py (lines 99-125).  It first
creates (truncates) the scratch file `custom.css-new`, then opens
custom.css: if that file does not exist the open raises (modelled by
the `none` result), leaving the empty scratch file behind.  Otherwise
it scans the lines; if the start sentinel was found the scratch file
is renamed over custom.css, else the scratch file is unlinked and
custom.css is left untouched; either way it returns True. -/
def remove_custom_css (st : FsState) (resource : String) : FsState × Option Bool :=
  let pfx := ( css_frame_prefix resource).data
  match st.custom with
  | none => (⟨none, some []⟩, none)
  | some content =>
      let scan := removeScan pfx true (pyLinesL content)
      if scan.2 then (⟨some scan.1.flatten, none⟩, some true)
      else (⟨some content, none⟩, some true)

/-! Lemmas about the line splitter. -/

lemma pyLinesL_cons (c : Char) (s : List Char) :
    pyLinesL (c :: s) =
      if c = '\n' then [c] :: pyLinesL s
      else
        match pyLinesL s with
        | [] => [[c]]
        | l :: ls => (c :: l) :: ls := rfl

lemma pyLinesL_newline_cons (s : List Char) :
    pyLinesL ('\n' :: s) = ['\n'] :: pyLinesL s := by
  rw [pyLinesL_cons, if_pos rfl]

lemma pyLinesL_cons_ne (c : Char) (s : List Char) (hc : c ≠ '\n') :
    pyLinesL (c :: s) =
      match pyLinesL s with
      | [] => [[c]]
      | l :: ls => (c :: l) :: ls := by
  rw [pyLinesL_cons, if_neg hc]

/-- A chunk with no interior newline followed by a newline is the
first line of its suffix. -/
lemma pyLinesL_append_newline (a rest : List Char) (h : '\n' ∉ a) :
    pyLinesL (a ++ '\n' :: rest) = (a ++ ['\n']) :: pyLinesL rest := by
  induction a with
  | nil => simp [pyLinesL_newline_cons]
  | cons c as ih =>
    have hc : c ≠ '\n' := fun e => h (by simp [e])
    have h' : '\n' ∉ as := fun m => h (List.mem_cons_of_mem _ m)
    rw [List.cons_append, pyLinesL_cons_ne c _ hc, ih h']
    simp

lemma pyLinesL_ne_nil (c : Char) (s : List Char) : pyLinesL (c :: s) ≠ [] := by
  by_cases hc : c = '\n'
  · subst hc; simp [pyLinesL_newline_cons]
  · rw [pyLinesL_cons_ne c _ hc]
    cases pyLinesL s <;> simp

/-- Splitting into lines loses no bytes: the lines concatenate back to
the original content. -/
lemma pyLinesL_flatten (s : List Char) : (pyLinesL s).flatten = s := by
  induction s with
  | nil => simp [pyLinesL]
  | cons c rest ih =>
    by_cases hc : c = '\n'
    · subst hc
      rw [pyLinesL_newline_cons]
      simp [ih]
    · rw [pyLinesL_cons_ne c _ hc]
      cases hL : pyLinesL rest with
      | nil =>
        have hr : rest = [] := by
          cases rest with
          | nil => rfl
          | cons d ds => exact absurd hL (pyLinesL_ne_nil d ds)
        subst hr; simp
      | cons l ls =>
        have hflat := ih
        rw [hL] at hflat
        simp only [List.flatten_cons] at hflat ⊢
        simp [List.cons_append, hflat]

/-- Splitting distributes over append when the first part is
newline-terminated. -/
lemma pyLinesL_append (a b : List Char) (h : a.getLast? = some '\n') :
    pyLinesL (a ++ b) = pyLinesL a ++ pyLinesL b := by
  induction a with
  | nil => simp at h
  | cons c as ih =>
    cases as with
    | nil =>
      have hc : c = '\n' := by simpa using h
      subst hc
      rw [List.cons_append, List.nil_append, pyLinesL_newline_cons,
        pyLinesL_newline_cons]
      simp [pyLinesL]
    | cons d ds =>
      have h' : (d :: ds).getLast? = some '\n' := by
        rwa [List.getLast?_cons_cons] at h
      have ih' := ih h'
      by_cases hc : c = '\n'
      · subst hc
        rw [List.cons_append, pyLinesL_newline_cons, ih', pyLinesL_newline_cons]
        simp
      · cases hL : pyLinesL (d :: ds) with
        | nil => exact absurd hL (pyLinesL_ne_nil d ds)
        | cons l ls =>
          rw [List.cons_append, pyLinesL_cons_ne c _ hc, ih', hL,
            pyLinesL_cons_ne c _ hc, hL]
          simp

/-! Lemmas about the substring / startswith tests. -/

lemma lineHas_append (pfx x : List Char) : lineHas (pfx ++ x) pfx = true := by
  simp only [lineHas, decide_eq_true_eq]
  exact ⟨[], x, by simp⟩

lemma startsWith_false_of_lineHas_false (l pfx q : List Char)
    (h : lineHas l pfx = false) : startsWith l (pfx ++ q) = false := by
  simp only [lineHas, decide_eq_false_iff_not] at h
  simp only [startsWith, decide_eq_false_iff_not]
  rintro ⟨t, ht⟩
  exact h ⟨[], q ++ t, by simpa [List.append_assoc] using ht⟩

lemma startsWith_append_left (p a b : List Char) :
    startsWith (p ++ a) (p ++ b) = startsWith a b := by
  simp only [startsWith, decide_eq_decide]
  constructor
  · rintro ⟨t, ht⟩
    rw [List.append_assoc, List.append_cancel_left_eq] at ht
    exact ⟨t, ht⟩
  · rintro ⟨t, ht⟩
    exact ⟨t, by simp [List.append_assoc, ht]⟩

/-! Lemmas about the removal scan. -/

lemma removeScan_start (pfx : List Char) (copy : Bool) (line : List Char)
    (rest : List (List Char))
    (h : startsWith line (pfx ++ ("START").data) = true) :
    removeScan pfx copy (line :: rest) = ((removeScan pfx false rest).1, true) := by
  simp [removeScan, h]

lemma removeScan_endline (pfx : List Char) (copy : Bool) (line : List Char)
    (rest : List (List Char))
    (h1 : startsWith line (pfx ++ ("START").data) = false)
    (h2 : startsWith line (pfx ++ ("END").data) = true) :
    removeScan pfx copy (line :: rest) = removeScan pfx true rest := by
  simp [removeScan, h1, h2]

/-- Lines that start with neither sentinel are written through while
the copying flag is on. -/
lemma removeScan_keep (pfx : List Char) (A rest : List (List Char))
    (hA : ∀ l ∈ A, startsWith l (pfx ++ ("START").data) = false ∧
          startsWith l (pfx ++ ("END").data) = false) :
    removeScan pfx true (A ++ rest) =
      (A ++ (removeScan pfx true rest).1, (removeScan pfx true rest).2) := by
  induction A with
  | nil => simp
  | cons l ls ih =>
    obtain ⟨h1, h2⟩ := hA l (List.mem_cons_self _ _)
    have ih' := ih (fun x hx => hA x (List.mem_cons_of_mem _ hx))
    simp [removeScan, h1, h2, ih']

/-- Lines that start with neither sentinel are dropped while the
copying flag is off. -/
lemma removeScan_skip (pfx : List Char) (B rest : List (List Char))
    (hB : ∀ l ∈ B, startsWith l (pfx ++ ("START").data) = false ∧
          startsWith l (pfx ++ ("END").data) = false) :
    removeScan pfx false (B ++ rest) = removeScan pfx false rest := by
  induction B with
  | nil => simp
  | cons l ls ih =>
    obtain ⟨h1, h2⟩ := hB l (List.mem_cons_self _ _)
    have ih' := ih (fun x hx => hB x (List.mem_cons_of_mem _ hx))
    simp [removeScan, h1, h2, ih']

/-- If no line starts with the start sentinel, the scan never sets the
found flag. -/
lemma removeScan_not_found (pfx : List Char) :
    ∀ (copy : Bool) (ls : List (List Char)),
    (∀ l ∈ ls, startsWith l (pfx ++ ("START").data) = false) →
    (removeScan pfx copy ls).2 = false
  | _, [], _ => by simp [removeScan]
  | copy, l :: rest, h => by
    have h1 := h l (List.mem_cons_self _ _)
    have htail : ∀ x ∈ rest, startsWith x (pfx ++ ("START").data) = false :=
      fun x hx => h x (List.mem_cons_of_mem _ hx)
    by_cases h2 : startsWith l (pfx ++ ("END").data) = true
    · rw [removeScan_endline pfx copy l rest h1 h2]
      exact removeScan_not_found pfx true rest htail
    · cases copy with
      | true =>
        simp only [removeScan, h1, Bool.false_eq_true, if_false,
          eq_false_of_ne_true h2]
        exact removeScan_not_found pfx true rest htail
      | false =>
        simp only [removeScan, h1, Bool.false_eq_true, if_false,
          eq_false_of_ne_true h2]
        exact removeScan_not_found pfx false rest htail

/-! Unfolding equations for the two css routines. -/

lemma install_custom_css_some (content : List Char) (sc : Option (List Char))
    (d : List Char) (r : String) :
    install_custom_css ⟨some content, sc⟩ d r =
      if (pyLinesL content).any (fun line => lineHas line ( css_frame_prefix r).data) then
        ⟨some content, sc⟩
      else
        ⟨some (( css_frame_prefix r).data ++ sentinelSTART.data ++ d ++
               ( css_frame_prefix r).data ++ sentinelEND.data ++ content), none⟩ := rfl

lemma install_custom_css_none (sc : Option (List Char)) (d : List Char) (r : String) :
    install_custom_css ⟨none, sc⟩ d r =
      ⟨some (( css_frame_prefix r).data ++ sentinelSTART.data ++ d ++
             ( css_frame_prefix r).data ++ sentinelEND.data), none⟩ := rfl

lemma remove_custom_css_some (content : List Char) (sc : Option (List Char)) (r : String) :
    remove_custom_css ⟨some content, sc⟩ r =
      if (removeScan ( css_frame_prefix r).data true (pyLinesL content)).2 then
        (⟨some (removeScan ( css_frame_prefix r).data true (pyLinesL content)).1.flatten,
          none⟩, some true)
      else (⟨some content, none⟩, some true) := rfl

lemma sentinelSTART_data :
    sentinelSTART.data = ("START ======================== */").data ++ ['\n'] := rfl

lemma sentinelEND_data :
    sentinelEND.data = ("END ======================== */").data ++ ['\n'] := rfl

/-- The frame prefix contains a newline only if the resource name does. -/
lemma newline_notin_pfx (r : String) (hr : '\n' ∉ r.data) :
    '\n' ∉ ( css_frame_prefix r).data := by
  intro h
  simp only [ css_frame_prefix, String.data_append, List.mem_append] at h
  rcases h with (h | h) | h
  · exact absurd h (by decide)
  · exact hr h
  · exact absurd h (by decide)

/-- Content that begins with the frame prefix and the START sentinel
has the prefix inside its first line, so the install check fires. -/
lemma anyLineHas_block (pfx rest : List Char) (h : '\n' ∉ pfx) :
    (pyLinesL (pfx ++ sentinelSTART.data ++ rest)).any
      (fun line => lineHas line pfx) = true := by
  have hnl : '\n' ∉ pfx ++ ("START ======================== */").data := by
    intro hm
    rcases List.mem_append.mp hm with hm | hm
    · exact h hm
    · exact absurd hm (by decide)
  have hrepr : pfx ++ sentinelSTART.data ++ rest
      = (pfx ++ ("START ======================== */").data) ++ '\n' :: rest := by
    rw [sentinelSTART_data]
    simp [List.append_assoc]
  rw [hrepr, pyLinesL_append_newline _ _ hnl, List.any_cons]
  have hline : lineHas (pfx ++ ("START ======================== */").data ++ ['\n']) pfx
      = true := by
    rw [List.append_assoc]
    exact lineHas_append pfx _
  rw [hline, Bool.true_or]

/-- C1: installing the CSS splice twice is idempotent — after one
install the written content contains the frame prefix, so a second
call with the same resource name returns without writing and leaves
the file state unchanged.  (The resource name must not contain a
newline; the only caller passes the package name.) -/
theorem install_custom_css_idempotent (st : FsState) (cssData : List Char) (r : String)
    (hr : '\n' ∉ r.data) :
    install_custom_css (install_custom_css st cssData r) cssData r =
      install_custom_css st cssData r := by
  have hpfx := newline_notin_pfx r hr
  obtain ⟨custom, scratch⟩ := st
  cases custom with
  | none =>
    have hany : (pyLinesL (( css_frame_prefix r).data ++ sentinelSTART.data ++ cssData ++
        ( css_frame_prefix r).data ++ sentinelEND.data)).any
        (fun line => lineHas line ( css_frame_prefix r).data) = true := by
      have := anyLineHas_block ( css_frame_prefix r).data
        (cssData ++ ( css_frame_prefix r).data ++ sentinelEND.data) hpfx
      simpa [List.append_assoc] using this
    rw [install_custom_css_none, install_custom_css_some, if_pos hany]
  | some content =>
    rw [install_custom_css_some]
    by_cases hchk : (pyLinesL content).any
        (fun line => lineHas line ( css_frame_prefix r).data) = true
    · rw [if_pos hchk, install_custom_css_some, if_pos hchk]
    · have hany : (pyLinesL (( css_frame_prefix r).data ++ sentinelSTART.data ++ cssData ++
          ( css_frame_prefix r).data ++ sentinelEND.data ++ content)).any
          (fun line => lineHas line ( css_frame_prefix r).data) = true := by
        have := anyLineHas_block ( css_frame_prefix r).data
          (cssData ++ ( css_frame_prefix r).data ++ sentinelEND.data ++ content) hpfx
        simpa [List.append_assoc] using this
      rw [if_neg hchk, install_custom_css_some, if_pos hany]

/-- Witness for C1 at the package name and an empty file state. -/
theorem install_custom_css_idempotent_witness :
    '\n' ∉ ("sparqlkernel" : String).data ∧
    install_custom_css
        (install_custom_css ⟨none, none⟩ ("div \x7b\x7d\n").data "sparqlkernel")
        ("div \x7b\x7d\n").data "sparqlkernel" =
      install_custom_css ⟨none, none⟩ ("div \x7b\x7d\n").data "sparqlkernel" :=
  ⟨by decide, install_custom_css_idempotent ⟨none, none⟩ ("div \x7b\x7d\n").data
    "sparqlkernel" (by decide)⟩

/-- C4: with no existing custom.css, install creates a file whose
bytes are exactly the start sentinel line, the packaged fragment and
the end sentinel line — nothing after. -/
theorem install_custom_css_creates_exact_file (cssData : List Char)
    (sc : Option (List Char)) (r : String) :
    install_custom_css ⟨none, sc⟩ cssData r =
      ⟨some (( css_frame_prefix r).data ++ ("START ======================== */\n").data ++
             cssData ++
             ( css_frame_prefix r).data ++ ("END ======================== */\n").data),
        none⟩ := rfl

/-- C6: removal with no custom.css raises (result `none` models the
unhandled exception from opening the missing file) and does not treat
the missing file as empty content — no custom.css is created. -/
theorem remove_custom_css_missing_raises (sc : Option (List Char)) (r : String) :
    (remove_custom_css ⟨none, sc⟩ r).2 = none ∧
    (remove_custom_css ⟨none, sc⟩ r).1.custom = none :=
  ⟨rfl, rfl⟩

/-- C10: removal with no custom.css first creates (truncates) the
scratch file custom.css-new and only then fails, so the empty scratch
file is left on disk; the unlink cleanup is never reached. -/
theorem remove_custom_css_missing_scratch_leak (sc : Option (List Char)) (r : String) :
    (remove_custom_css ⟨none, sc⟩ r).1.scratch = some [] ∧
    (remove_custom_css ⟨none, sc⟩ r).2 = none :=
  ⟨rfl, rfl⟩

/-- C9: the install check is a substring test on each line
(`line.find(prefix) >= 0`), so whenever any line of the existing file
merely contains the frame prefix — even with no start sentinel
anywhere — install returns without modifying anything. -/
theorem install_custom_css_noop_on_any_occurrence (content cssData : List Char)
    (sc : Option (List Char)) (r : String)
    (h : (pyLinesL content).any
        (fun line => lineHas line ( css_frame_prefix r).data) = true) :
    install_custom_css ⟨some content, sc⟩ cssData r = ⟨some content, sc⟩ := by
  rw [install_custom_css_some, if_pos h]

/-- A file consisting of a lone END sentinel line: it contains the
frame prefix but no START sentinel. -/
def cEndOnly : List Char :=
  (( css_frame_prefix "sparqlkernel") ++ "END ======================== */\n").data

/-- Witness for C9: a leftover END sentinel with no START line still
makes install a no-op. -/
theorem install_custom_css_noop_witness :
    ((pyLinesL cEndOnly).any
        (fun line => lineHas line ( css_frame_prefix "sparqlkernel").data) = true) ∧
    ((pyLinesL cEndOnly).any
        (fun line => startsWith line
          (( css_frame_prefix "sparqlkernel").data ++ ("START").data)) = false) ∧
    install_custom_css ⟨some cEndOnly, none⟩ ("div \x7b\x7d\n").data "sparqlkernel" =
      ⟨some cEndOnly, none⟩ :=
  ⟨by decide, by decide,
    install_custom_css_noop_on_any_occurrence cEndOnly ("div \x7b\x7d\n").data none
      "sparqlkernel" (by decide)⟩

/-- C3 (amended): on a file with no line starting with the START
sentinel, removal leaves custom.css byte-for-byte untouched and
discards the scratch file — but it returns True, the very same report
as a successful removal. -/
theorem remove_custom_css_no_sentinel_untouched (content : List Char)
    (sc : Option (List Char)) (r : String)
    (h : ∀ line ∈ pyLinesL content,
        startsWith line (( css_frame_prefix r).data ++ ("START").data) = false) :
    remove_custom_css ⟨some content, sc⟩ r = (⟨some content, none⟩, some true) := by
  have hnf := removeScan_not_found ( css_frame_prefix r).data true (pyLinesL content) h
  rw [remove_custom_css_some, if_neg (by simp [hnf])]

/-- Witness for the amended C3 at a concrete sentinel-free file. -/
theorem remove_custom_css_no_sentinel_witness :
    (∀ line ∈ pyLinesL ("p \x7b color: blue \x7d\n").data,
        startsWith line
          (( css_frame_prefix "sparqlkernel").data ++ ("START").data) = false) ∧
    remove_custom_css ⟨some ("p \x7b color: blue \x7d\n").data, some ("junk").data⟩
        "sparqlkernel" =
      (⟨some ("p \x7b color: blue \x7d\n").data, none⟩, some true) :=
  ⟨by decide, remove_custom_css_no_sentinel_untouched ("p \x7b color: blue \x7d\n").data
    (some ("junk").data) "sparqlkernel" (by decide)⟩

/-- A file holding exactly one installed block, used to compare the
report of a successful removal with the report of a removal that
removed nothing. -/
def blockOnlyFile : List Char :=
  (( css_frame_prefix "sparqlkernel") ++ "START ======================== */\n" ++
   "div \x7b\x7d\n" ++
   ( css_frame_prefix "sparqlkernel") ++ "END ======================== */\n").data

/-- Counterexample to C3 as stated: the removal that removed nothing
returns `True` — exactly the value a successful removal returns (the
function's only report channel), so it does not report "not found". -/
theorem remove_custom_css_report_cex :
    (remove_custom_css ⟨some ("p \x7b\x7d\n").data, none⟩ "sparqlkernel").2 = some true ∧
    (remove_custom_css ⟨some blockOnlyFile, none⟩ "sparqlkernel").2 = some true ∧
    (remove_custom_css ⟨some ("p \x7b\x7d\n").data, none⟩ "sparqlkernel").1.custom =
      some ("p \x7b\x7d\n").data := by
  refine ⟨by decide, by decide, by decide⟩

/-- The removal behaviour C5 asserts, read literally: delete exactly
the lines from a START sentinel line through the next END sentinel
line, inclusive; every line outside such a block — including a stray
END sentinel line not preceded by a START — passes through unchanged. -/
def removeClaimScan (pfx : List Char) : Bool → List (List Char) → List (List Char)
  | _, [] => []
  | copy, line :: rest =>
    if startsWith line (pfx ++ ("START").data) then removeClaimScan pfx false rest
    else if copy then line :: removeClaimScan pfx true rest
    else if startsWith line (pfx ++ ("END").data) then removeClaimScan pfx true rest
    else removeClaimScan pfx false rest

/-- A file with a stray END sentinel line before a proper block. -/
def strayEndFile : List Char :=
  (( css_frame_prefix "sparqlkernel") ++ "END ======================== */\n" ++
   "a \x7b\x7d\n" ++
   ( css_frame_prefix "sparqlkernel") ++ "START ======================== */\n" ++
   "b \x7b\x7d\n" ++
   ( css_frame_prefix "sparqlkernel") ++ "END ======================== */\n" ++
   "c \x7b\x7d\n").data

/-- Counterexample to C5 as stated: on a file with a stray END
sentinel line before the block, the code also deletes that stray line
(its scan drops every line starting with the END sentinel), so the
output differs from deleting exactly the block. -/
theorem remove_custom_css_exact_lines_cex :
    ((remove_custom_css ⟨some strayEndFile, none⟩ "sparqlkernel").1).custom ≠
      some (removeClaimScan ( css_frame_prefix "sparqlkernel").data true
        (pyLinesL strayEndFile)).flatten := by
  decide

lemma removeScan_all_kept (pfx : List Char) (C : List (List Char))
    (hC : ∀ l ∈ C, startsWith l (pfx ++ ("START").data) = false ∧
          startsWith l (pfx ++ ("END").data) = false) :
    removeScan pfx true C = (C, false) := by
  have h := removeScan_keep pfx C [] hC
  simpa [removeScan] using h

/-- C5 (amended): on a file consisting of lines A, one START sentinel
line, lines B, one END sentinel line, then lines C, where A, B and C
contain no line starting with either sentinel, removal deletes exactly
the block — the sentinel lines and the lines between them — and writes
A and C through unchanged and in order. -/
theorem remove_custom_css_deletes_block (content : List Char) (sc : Option (List Char))
    (r : String) (A B C : List (List Char)) (startLine endLine : List Char)
    (hsplit : pyLinesL content = A ++ startLine :: (B ++ endLine :: C))
    (hstart : startsWith startLine
        (( css_frame_prefix r).data ++ ("START").data) = true)
    (hendS : startsWith endLine
        (( css_frame_prefix r).data ++ ("START").data) = false)
    (hendE : startsWith endLine
        (( css_frame_prefix r).data ++ ("END").data) = true)
    (hA : ∀ l ∈ A, startsWith l (( css_frame_prefix r).data ++ ("START").data) = false ∧
          startsWith l (( css_frame_prefix r).data ++ ("END").data) = false)
    (hB : ∀ l ∈ B, startsWith l (( css_frame_prefix r).data ++ ("START").data) = false ∧
          startsWith l (( css_frame_prefix r).data ++ ("END").data) = false)
    (hC : ∀ l ∈ C, startsWith l (( css_frame_prefix r).data ++ ("START").data) = false ∧
          startsWith l (( css_frame_prefix r).data ++ ("END").data) = false) :
    remove_custom_css ⟨some content, sc⟩ r = (⟨some (A ++ C).flatten, none⟩, some true) := by
  have h1 : removeScan ( css_frame_prefix r).data true (startLine :: (B ++ endLine :: C))
      = (C, true) := by
    rw [removeScan_start _ _ _ _ hstart, removeScan_skip _ _ _ hB,
      removeScan_endline _ _ _ _ hendS hendE, removeScan_all_kept _ _ hC]
  have hscan : removeScan ( css_frame_prefix r).data true (pyLinesL content)
      = (A ++ C, true) := by
    rw [hsplit, removeScan_keep _ _ _ hA, h1]
  rw [remove_custom_css_some, hscan, if_pos rfl]

/-- A file holding lines around exactly one installed block. -/
def blockWithContext : List Char :=
  ("x \x7b\x7d\n" ++
   ( css_frame_prefix "sparqlkernel") ++ "START ======================== */\n" ++
   "y \x7b\x7d\n" ++
   ( css_frame_prefix "sparqlkernel") ++ "END ======================== */\n" ++
   "z \x7b\x7d\n").data

/-- Witness for the amended C5 at a concrete one-block file. -/
theorem remove_custom_css_deletes_block_witness :
    pyLinesL blockWithContext =
      [("x \x7b\x7d\n").data] ++
        (( css_frame_prefix "sparqlkernel") ++ "START ======================== */\n").data ::
        ([("y \x7b\x7d\n").data] ++
          (( css_frame_prefix "sparqlkernel") ++ "END ======================== */\n").data ::
          [("z \x7b\x7d\n").data]) ∧
    remove_custom_css ⟨some blockWithContext, none⟩ "sparqlkernel" =
      (⟨some ([("x \x7b\x7d\n").data] ++ [("z \x7b\x7d\n").data]).flatten, none⟩, some true) :=
  ⟨by decide,
    remove_custom_css_deletes_block blockWithContext none "sparqlkernel"
      [("x \x7b\x7d\n").data] [("y \x7b\x7d\n").data] [("z \x7b\x7d\n").data]
      (( css_frame_prefix "sparqlkernel") ++ "START ======================== */\n").data
      (( css_frame_prefix "sparqlkernel") ++ "END ======================== */\n").data
      (by decide) (by decide) (by decide) (by decide) (by decide) (by decide) (by decide)⟩

/-- C2: remove, then install, then remove restores custom.css to its
original byte content, for any existing file none of whose lines
contains the frame prefix.  The packaged fragment is assumed to be
empty or newline-terminated and to contain the frame prefix in none of
its lines (true of the packaged css resource, which is not part of
this file); without that the END sentinel would not sit on its own
line and the second removal would not stop at it. -/
theorem remove_install_remove_restores (content cssData : List Char)
    (sc : Option (List Char)) (r : String)
    (hr : '\n' ∉ r.data)
    (hcontent : ∀ line ∈ pyLinesL content,
        lineHas line ( css_frame_prefix r).data = false)
    (hdata : ∀ line ∈ pyLinesL cssData,
        lineHas line ( css_frame_prefix r).data = false)
    (hterm : cssData = [] ∨ cssData.getLast? = some '\n') :
    (remove_custom_css (install_custom_css
        (remove_custom_css ⟨some content, sc⟩ r).1 cssData r) r).1.custom =
      some content := by
  have hpfx := newline_notin_pfx r hr
  have hcS : ∀ line ∈ pyLinesL content,
      startsWith line (( css_frame_prefix r).data ++ ("START").data) = false :=
    fun l hl => startsWith_false_of_lineHas_false _ _ _ (hcontent l hl)
  have hcE : ∀ line ∈ pyLinesL content,
      startsWith line (( css_frame_prefix r).data ++ ("END").data) = false :=
    fun l hl => startsWith_false_of_lineHas_false _ _ _ (hcontent l hl)
  have hcPairs : ∀ l ∈ pyLinesL content,
      startsWith l (( css_frame_prefix r).data ++ ("START").data) = false ∧
      startsWith l (( css_frame_prefix r).data ++ ("END").data) = false :=
    fun l hl => ⟨hcS l hl, hcE l hl⟩
  have hdPairs : ∀ l ∈ pyLinesL cssData,
      startsWith l (( css_frame_prefix r).data ++ ("START").data) = false ∧
      startsWith l (( css_frame_prefix r).data ++ ("END").data) = false :=
    fun l hl => ⟨startsWith_false_of_lineHas_false _ _ _ (hdata l hl),
      startsWith_false_of_lineHas_false _ _ _ (hdata l hl)⟩
  rw [remove_custom_css_no_sentinel_untouched content sc r hcS]
  have hanyF : (pyLinesL content).any
      (fun line => lineHas line ( css_frame_prefix r).data) = false := by
    rw [List.any_eq_false]
    intro x hx
    simp [hcontent x hx]
  rw [install_custom_css_some, if_neg (by simp [hanyF])]
  have hbody1 : '\n' ∉ ( css_frame_prefix r).data ++
      ("START ======================== */").data := by
    intro hm
    rcases List.mem_append.mp hm with hm | hm
    · exact hpfx hm
    · exact absurd hm (by decide)
  have hbody2 : '\n' ∉ ( css_frame_prefix r).data ++
      ("END ======================== */").data := by
    intro hm
    rcases List.mem_append.mp hm with hm | hm
    · exact hpfx hm
    · exact absurd hm (by decide)
  have htailEq : pyLinesL (( css_frame_prefix r).data ++ sentinelEND.data ++ content)
      = (( css_frame_prefix r).data ++ ("END ======================== */").data ++ ['\n']) ::
        pyLinesL content := by
    have hr2 : ( css_frame_prefix r).data ++ sentinelEND.data ++ content
        = (( css_frame_prefix r).data ++ ("END ======================== */").data) ++
          '\n' :: content := by
      rw [sentinelEND_data]
      simp [List.append_assoc]
    rw [hr2, pyLinesL_append_newline _ _ hbody2]
  have hlines : pyLinesL (( css_frame_prefix r).data ++ sentinelSTART.data ++ cssData ++
      ( css_frame_prefix r).data ++ sentinelEND.data ++ content)
      = (( css_frame_prefix r).data ++ ("START ======================== */").data ++ ['\n']) ::
        (pyLinesL cssData ++
          (( css_frame_prefix r).data ++ ("END ======================== */").data ++ ['\n']) ::
          pyLinesL content) := by
    have hr1 : ( css_frame_prefix r).data ++ sentinelSTART.data ++ cssData ++
        ( css_frame_prefix r).data ++ sentinelEND.data ++ content
        = (( css_frame_prefix r).data ++ ("START ======================== */").data) ++
          '\n' :: (cssData ++ (( css_frame_prefix r).data ++ sentinelEND.data ++ content)) := by
      rw [sentinelSTART_data]
      simp [List.append_assoc]
    rw [hr1, pyLinesL_append_newline _ _ hbody1]
    congr 1
    rcases hterm with hd0 | hdL
    · subst hd0
      simpa using htailEq
    · rw [pyLinesL_append cssData _ hdL, htailEq]
  have hstart1 : startsWith
      (( css_frame_prefix r).data ++ ("START ======================== */").data ++ ['\n'])
      (( css_frame_prefix r).data ++ ("START").data) = true := by
    rw [List.append_assoc, startsWith_append_left]
    decide
  have hendS1 : startsWith
      (( css_frame_prefix r).data ++ ("END ======================== */").data ++ ['\n'])
      (( css_frame_prefix r).data ++ ("START").data) = false := by
    rw [List.append_assoc, startsWith_append_left]
    decide
  have hendE1 : startsWith
      (( css_frame_prefix r).data ++ ("END ======================== */").data ++ ['\n'])
      (( css_frame_prefix r).data ++ ("END").data) = true := by
    rw [List.append_assoc, startsWith_append_left]
    decide
  have hscan : removeScan ( css_frame_prefix r).data true
      (pyLinesL (( css_frame_prefix r).data ++ sentinelSTART.data ++ cssData ++
        ( css_frame_prefix r).data ++ sentinelEND.data ++ content))
      = (pyLinesL content, true) := by
    rw [hlines, removeScan_start _ _ _ _ hstart1, removeScan_skip _ _ _ hdPairs,
      removeScan_endline _ _ _ _ hendS1 hendE1, removeScan_all_kept _ _ hcPairs]
  rw [remove_custom_css_some, hscan, if_pos rfl]
  simp [pyLinesL_flatten]

/-- Witness for C2 at a concrete file and fragment. -/
theorem remove_install_remove_witness :
    '\n' ∉ ("sparqlkernel" : String).data ∧
    (∀ line ∈ pyLinesL ("h1 \x7b color: red \x7d\n").data,
        lineHas line ( css_frame_prefix "sparqlkernel").data = false) ∧
    (∀ line ∈ pyLinesL ("div \x7b\x7d\n").data,
        lineHas line ( css_frame_prefix "sparqlkernel").data = false) ∧
    (remove_custom_css (install_custom_css
        (remove_custom_css ⟨some ("h1 \x7b color: red \x7d\n").data, none⟩
          "sparqlkernel").1 ("div \x7b\x7d\n").data "sparqlkernel")
        "sparqlkernel").1.custom =
      some ("h1 \x7b color: red \x7d\n").data :=
  ⟨by decide, by decide, by decide,
    remove_install_remove_restores ("h1 \x7b color: red \x7d\n").data
      ("div \x7b\x7d\n").data none "sparqlkernel" (by decide) (by decide) (by decide)
      (Or.inr (by decide))⟩

/-! The resource copy batch (`install_kernel_resources`,
`copyresource`).  The destination directory is a list of written files
and the standard-error stream accumulates the text written to it.  The
per-file read of packaged bytes (`pkgutil.get_data` plus the write) is
the failure source; it is a parameter `getData` returning either the
file bytes or the message of the raised exception. -/

structure ResState where
  destdir : List (String × String)
  stderrLog : String
deriving DecidableEq, Repr

/-- `copyresource` from install.py (lines 45-52): read the packaged
bytes and write them to the destination; any exception propagates to
the caller. -/
def copyresource (getData : String → Except String String) (filename : String)
    (st : ResState) : Except String ResState :=
  match getData filename with
  | Except.error e => Except.error e
  | Except.ok d => Except.ok ⟨st.destdir ++ [(filename, d)], st.stderrLog⟩

/-- `install_kernel_resources` from install.py (lines 55-65): for each
filename (the two logo files when none are given) try `copyresource`;
a failure is written to standard error and the loop continues. -/
def install_kernel_resources (getData : String → Except String String)
    (files : Option (List String)) (st : ResState) : ResState :=
  let fs := match files with
    | none => ["logo-64x64.png", "logo-32x32.png"]
    | some given => given
  fs.foldl (fun acc filename =>
    match copyresource getData filename acc with
    | Except.ok st2 => st2
    | Except.error e => ⟨acc.destdir, acc.stderrLog ++ e⟩) st

/-- C7: a failure while copying one file of the batch is caught and
written to standard error, nothing is written to the destination for
that file, and the remaining files are still attempted — the batch
never aborts. -/
theorem install_kernel_resources_best_effort (getData : String → Except String String)
    (fs1 fs2 : List String) (f e : String) (st : ResState)
    (h : getData f = Except.error e) :
    install_kernel_resources getData (some (fs1 ++ f :: fs2)) st =
      install_kernel_resources getData (some fs2)
        ⟨(install_kernel_resources getData (some fs1) st).destdir,
         (install_kernel_resources getData (some fs1) st).stderrLog ++ e⟩ := by
  induction fs1 generalizing st with
  | nil =>
    simp only [install_kernel_resources, List.nil_append, List.foldl_cons, List.foldl_nil,
      copyresource, h]
  | cons g gs ih =>
    simp only [install_kernel_resources, List.cons_append, List.foldl_cons] at ih ⊢
    cases hg : copyresource getData g st with
    | ok st2 => simpa [hg] using ih st2
    | error e2 => simpa [hg] using ih ⟨st.destdir, st.stderrLog ++ e2⟩

/-- A packaged-data reader that fails on the first logo file only. -/
def getDataFailFirst : String → Except String String := fun f =>
  if f = "logo-64x64.png" then Except.error "no data" else Except.ok "PNG"

/-- Witness for C7: the first logo fails, the error lands on standard
error, and the second logo is still copied. -/
theorem install_kernel_resources_best_effort_witness :
    getDataFailFirst "logo-64x64.png" = Except.error "no data" ∧
    install_kernel_resources getDataFailFirst
        (some (([] : List String) ++ "logo-64x64.png" :: ["logo-32x32.png"])) ⟨[], ""⟩ =
      install_kernel_resources getDataFailFirst (some ["logo-32x32.png"])
        ⟨(install_kernel_resources getDataFailFirst (some []) ⟨[], ""⟩).destdir,
         (install_kernel_resources getDataFailFirst (some []) ⟨[], ""⟩).stderrLog ++
           "no data"⟩ :=
  ⟨rfl, install_kernel_resources_best_effort getDataFailFirst [] ["logo-32x32.png"]
    "logo-64x64.png" "no data" ⟨[], ""⟩ rfl⟩

/-! The kernel descriptor.  `kernel_json` is a module-level dict built
once at import time (install.py lines 29-35); `SparqlKernelInstall.start`
mutates it in place (`kernel_json['env'] = ...`, line 164) before
serializing.  The dict is an association list; `dictSet` is Python
dict assignment.  The display and kernel names and the interpreter
path come from modules outside this file and are parameters. -/

inductive JVal where
  | str : String → JVal
  | arr : List String → JVal
  | obj : List (String × String) → JVal
deriving DecidableEq, Repr

/-- The module-level `kernel_json` dict as first built at import. -/
def kernel_json (sysExecutable pkgname displayName kernelName : String) :
    List (String × JVal) :=
  [("argv", JVal.arr [sysExecutable, "-m", pkgname, "-f", "\x7bconnection_file\x7d"]),
   ("display_name", JVal.str displayName),
   ("name", JVal.str kernelName)]

/-- Python dict assignment `d[k] = v`: overwrite in place, or append
the new key at the end. -/
def dictSet (d : List (String × JVal)) (k : String) (v : JVal) :
    List (String × JVal) :=
  if d.any (fun kv => kv.1 == k) then
    d.map (fun kv => if kv.1 = k then (k, v) else kv)
  else d ++ [(k, v)]

/-- The descriptor mutation done by `SparqlKernelInstall.start` just
before `json.dump`: when the configured log directory is nonempty, set
`env` on the (shared, module-level) dict; otherwise touch nothing. -/
def start_kernel_json (kj : List (String × JVal)) (logdir : String) :
    List (String × JVal) :=
  if logdir.length > 0 then
    dictSet kj "env" (JVal.obj [("LOGDIR_DEFAULT", logdir)])
  else kj

/-- Counterexample to C8 as stated: the descriptor dict is module
state, not created fresh per install — after an install with a log
directory, a later install in the same process without one serializes
a descriptor that still has the `env` key. -/
theorem kernel_json_env_persists_cex :
    (start_kernel_json
        (start_kernel_json (kernel_json "python" "sparqlkernel" "SPARQL" "sparql")
          "/var/log/sparql") "").map Prod.fst =
      ["argv", "display_name", "name", "env"] := by
  decide

/-- C8 (amended): an install that starts from the pristine
import-time descriptor serializes a flat mapping whose keys are
exactly argv, display_name, name, plus env exactly when a log
directory was given; but the dict is mutated in place and `env`, once
added, is never removed by a later install in the same process. -/
theorem kernel_json_keys_single_install (sysExecutable pkgname displayName kernelName
    logdir : String) :
    (start_kernel_json (kernel_json sysExecutable pkgname displayName kernelName)
        logdir).map Prod.fst =
      if logdir.length > 0 then ["argv", "display_name", "name", "env"]
      else ["argv", "display_name", "name"] := by
  by_cases h : logdir.length > 0
  · rw [if_pos h]
    simp only [start_kernel_json, if_pos h]
    rfl
  · rw [if_neg h]
    simp only [start_kernel_json, if_neg h]
    rfl

end SparqlKernel
